import Mathlib

/-!
Shallow embedding of the Market-Data-Node proxy core (src/server.js):
symbol resolution, TTL caches, the /price and /history Express handlers
with their retry and fallback chains, and theorems checking the spec's
claims against this embedding.

JavaScript numbers that can be `undefined`, `null` or `NaN` are modelled
by the `JsVal` type; finite numbers are rationals.  Times are integer
milliseconds.  The in-memory `Map` caches are association lists keyed by
the exact strings the code builds by concatenation.  Upstream HTTP calls
are oracles passed to the handlers; each handler also reports the list of
upstream requests it issued, so that claims about "no network work" and
"exactly one retry" are statable.
-/

/-- A JavaScript value as it flows through the numeric paths of server.js:
`undefined`, `null`, `NaN`, or a finite number (modelled as a rational). -/
inductive JsVal where
  | undef : JsVal
  | null : JsVal
  | nan : JsVal
  | num (q : ℚ) : JsVal
deriving DecidableEq, Repr

/-- JavaScript truthiness for the values of `JsVal`: `undefined`, `null`,
`NaN` and `0` are falsy, every other number is truthy. -/
def truthy : JsVal → Bool
  | .num q => decide (q ≠ 0)
  | _ => false

/-- The JavaScript `a || b` operator restricted to `JsVal`. -/
def jsOr (a b : JsVal) : JsVal := if truthy a then a else b

/-- The JavaScript `Number(-)` coercion on `JsVal`: `Number(undefined) = NaN`,
`Number(null) = 0`, numbers unchanged. -/
def toNumber : JsVal → JsVal
  | .undef => .nan
  | .null => .num 0
  | .nan => .nan
  | .num q => .num q

/-- JavaScript `+` on two `Number(-)` results: finite sum, `NaN` absorbing. -/
def jsAdd : JsVal → JsVal → JsVal
  | .num a, .num b => .num (a + b)
  | _, _ => .nan

/-- A raw kline row from the upstream klines endpoint: a JS array,
accessed positionally. -/
def Row : Type := List JsVal

/-- JS array indexing `k[i]`: out-of-range access yields `undefined`. -/
def rowGet (k : Row) (i : Nat) : JsVal := List.getD k i JsVal.undef

/-- JavaScript `toUpperCase()` on the ASCII strings the handlers see,
written with a structural list map so that the kernel can evaluate it. -/
def jsToUpper (s : String) : String := String.mk (s.data.map Char.toUpper)

/-- The fixed `symbolToId` table of server.js. -/
def symbolToId (s : String) : Option String :=
  if s = "BTC" then some "BTCUSDT"
  else if s = "ETH" then some "ETHUSDT"
  else if s = "SOL" then some "SOLUSDT"
  else if s = "ASTER" then some "ASTRUSDT"
  else none

/-- Lookup in an in-memory cache `Map` (association list, latest write first). -/
def mapGet {α : Type} (m : List (String × α)) (k : String) : Option α :=
  (m.find? (fun p => p.1 = k)).map Prod.snd

/-- The /history cache key: `` `${ticker}:usd:${days}:${interval}` ``. -/
def histKey (ticker : String) (days : Nat) (interval : String) : String :=
  ticker ++ ":usd:" ++ toString days ++ ":" ++ interval

/-- The /price cache key: `` `${ticker}:${currency}` `` (currency is the
upper-cased query value). -/
def priceKey (ticker currency : String) : String := ticker ++ ":" ++ currency

/-- The key under which the /history 429 fallback looks up the latest
spot price: `` `${ticker}:usd` `` — note the lowercase `usd`. -/
def spotKey (ticker : String) : String := ticker ++ ":usd"

/-- `Map.set`: overwrite any previous entry for the key. -/
def mapSet {α : Type} (m : List (String × α)) (k : String) (v : α) :
    List (String × α) :=
  (k, v) :: m.filter (fun p => p.1 ≠ k)

/-- The payload served and cached by the /price handler. -/
structure PricePayload where
  symbol : String
  currency : String
  price : JsVal
  source : String
  timestamp : Int
deriving DecidableEq, Repr

/-- One chart point `{t, price}` of a history payload. -/
structure Point where
  t : JsVal
  price : JsVal
deriving DecidableEq, Repr

/-- The payload served and cached by the /history handler. -/
structure HistoryPayload where
  symbol : String
  days : Nat
  interval : String
  points : List Point
  volume24h : JsVal
  source : String
deriving DecidableEq, Repr

/-- A history-cache entry `{payload, timestamp}` as written by server.js. -/
structure HistoryCacheEntry where
  payload : HistoryPayload
  timestamp : Int
deriving DecidableEq, Repr

/-- The process-wide mutable state: the two in-memory cache maps. -/
structure St where
  priceCache : List (String × PricePayload)
  historyCache : List (String × HistoryCacheEntry)
deriving Repr

/-- The configuration read from the environment at startup. -/
structure Config where
  cacheTtlMs : Int
  historyCacheTtlMs : Int
  mockHistory : Bool
  priceApiBase : String
  historyApiBase : String

/-- An upstream (axios) failure: the optional HTTP status of
`err.response` and the optional error body. -/
structure UpErr where
  status : Option Nat
  data : Option String
deriving DecidableEq, Repr

/-- The status the catch blocks compute: `err.response?.status || 500`. -/
def effStatus (e : UpErr) : Nat :=
  match e.status with
  | some s => if s = 0 then 500 else s
  | none => 500

/-- Parameters of one upstream klines request. -/
structure KParams where
  symbol : String
  interval : String
  limit : Nat
deriving DecidableEq, Repr

/-- The query parameters of a /history request (absent means default). -/
structure HistoryReq where
  symbol : Option String
  days : Option Nat
  interval : Option String

/-- A response from the /history handler: a JSON success body (payload
plus the `cached` and `warning` annotations) or an error status with
message and optional upstream details. -/
inductive HistoryRes where
  | ok (p : HistoryPayload) (cached : Bool) (warning : Option String) : HistoryRes
  | err (status : Nat) (msg : String) (details : Option String) : HistoryRes
deriving DecidableEq, Repr

/-- One /history handler run: the response, the state after it, and the
list of upstream klines requests it issued, in order. -/
structure HistoryStep where
  res : HistoryRes
  st : St
  calls : List KParams

/-- Interval mapping of server.js:
`interval === 'hourly' ? '1h' : interval === 'daily' ? '1d' : '1h'`. -/
def binanceIntervalOf (interval : String) : String :=
  if interval = "hourly" then "1h" else if interval = "daily" then "1d" else "1h"

/-- Row limit of server.js: `Math.min(days*24, 1000)` for `1h`,
`Math.min(days, 1000)` otherwise. -/
def klineLimitOf (days : Nat) (binanceInterval : String) : Nat :=
  if binanceInterval = "1h" then min (days * 24) 1000 else min days 1000

/-- The primary klines request the /history handler sends. -/
def primaryParams (ticker : String) (days : Nat) (interval : String) : KParams :=
  ⟨ticker, binanceIntervalOf interval, klineLimitOf days (binanceIntervalOf interval)⟩

/-- The fixed degraded request used on a 429: interval `1d`, limit 30. -/
def degradedParams (ticker : String) : KParams := ⟨ticker, "1d", 30⟩

/-- The inner try/catch of the /history handler: try the primary request;
if it fails with effective status 429, retry once with the degraded
request; any other failure is rethrown.  Returns the outcome and the
requests issued. -/
def resolvedFetch (fetch : KParams → Except UpErr (List Row)) (p d : KParams) :
    Except UpErr (List Row) × List KParams :=
  match fetch p with
  | .ok r => (.ok r, [p])
  | .error e =>
    if effStatus e = 429 then (fetch d, [p, d]) else (.error e, [p])

/-- The kline transform: `klines.map((k) => ({t: k[0], price: Number(k[4])}))`. -/
def seriesOf (klines : List Row) : List Point :=
  klines.map (fun k => ⟨rowGet k 0, toNumber (rowGet k 4)⟩)

/-- The 24h volume: `klines.reduce((sum, k) => sum + Number(k[7] || 0), 0)`. -/
def volume24hOf (klines : List Row) : JsVal :=
  klines.foldl (fun sum k => jsAdd sum (toNumber (jsOr (rowGet k 7) (.num 0)))) (.num 0)

/-- The `source` string of a fetched history payload:
`url?symbol=...&interval=...&limit=...`. -/
def historySource (cfg : Config) (ticker : String) (days : Nat) (interval : String) :
    String :=
  cfg.historyApiBase ++ "?symbol=" ++ ticker ++ "&interval="
    ++ binanceIntervalOf interval ++ "&limit="
    ++ toString (klineLimitOf days (binanceIntervalOf interval))

/-- Warning attached to the mock-history response. -/
def mockWarning : String := "MOCK_HISTORY enabled; serving demo data."

/-- Warning when a rate limit makes /history serve the stale cache. -/
def rateLimitHistWarning : String := "Upstream rate limit hit, serving cached history."

/-- Warning when a 401/403 rejection makes /history serve the stale cache. -/
def rejectedHistWarning : String :=
  "Upstream rejected request, serving cached history. Set API_KEY if needed."

/-- Warning attached to the synthetic flat-series fallback. -/
def flatFallbackWarning : String :=
  "Upstream rate limit hit, serving flat fallback from latest spot."

/-- Body of the dedicated 401 error response of /history. -/
def unauthorizedMsg : String :=
  "Unauthorized with upstream. Provide API_KEY if required by provider."

/-- The fixed demonstration series served when MOCK_HISTORY is enabled. -/
def mockPoints (now : Int) : List Point :=
  [ ⟨.num ((now - 4 * 60 * 60 * 1000 : Int) : ℚ), .num 86000⟩,
    ⟨.num ((now - 3 * 60 * 60 * 1000 : Int) : ℚ), .num 86500⟩,
    ⟨.num ((now - 2 * 60 * 60 * 1000 : Int) : ℚ), .num 86200⟩,
    ⟨.num ((now - 1 * 60 * 60 * 1000 : Int) : ℚ), .num 87000⟩,
    ⟨.num ((now - 30 * 60 * 1000 : Int) : ℚ), .num 88500⟩,
    ⟨.num ((now : Int) : ℚ), .num 88800⟩ ]

/-- The synthetic flat fallback series: 12 points, 5-minute steps back
from `now`, all at the cached spot price. -/
def syntheticPoints (now : Int) (price : JsVal) : List Point :=
  (List.range 12).map
    (fun idx => ⟨.num ((now - (11 - (idx : Int)) * 5 * 60 * 1000 : Int) : ℚ), price⟩)

/-- The tail of the /history catch block, reached when no fallback
applies: a dedicated 401 response, else the generic failure response. -/
def historyErrTail (status : Nat) (e : UpErr) : HistoryRes :=
  if status = 401 then .err 401 unauthorizedMsg e.data
  else .err status "History request failed" e.data

/-- The catch block of the /history handler: serve a stale cache entry on
429/401/403, else on 429 with no cache entry try the synthetic flat
series from the price cache (looked up under the lowercase key
`ticker:usd`), else the error tail. -/
def historyCatch (st : St) (now : Int) (cfg : Config) (ticker symbol : String)
    (days : Nat) (interval : String) (cached : Option HistoryCacheEntry)
    (e : UpErr) : HistoryRes :=
  let status := effStatus e
  match cached with
  | some entry =>
    if status = 429 ∨ status = 401 ∨ status = 403 then
      .ok entry.payload true
        (some (if status = 429 then rateLimitHistWarning else rejectedHistWarning))
    else historyErrTail status e
  | none =>
    if status = 429 then
      match mapGet st.priceCache (spotKey ticker) with
      | some spot =>
        if truthy spot.price then
          .ok { symbol := symbol, days := days, interval := interval,
                points := syntheticPoints now spot.price, volume24h := .null,
                source := cfg.historyApiBase ++ " (fallback)" }
            true (some flatFallbackWarning)
        else historyErrTail status e
      | none => historyErrTail status e
    else historyErrTail status e

/-- The try block of /history after a miss or stale cache entry: primary
fetch with the 429 retry, transform, empty-series 502 guard, cache write
on success, catch block on failure. -/
def historyFetchPath (cfg : Config) (fetch : KParams → Except UpErr (List Row))
    (st : St) (now : Int) (ticker symbol : String) (days : Nat) (interval : String)
    (cacheKey : String) (cached : Option HistoryCacheEntry) : HistoryStep :=
  match resolvedFetch fetch (primaryParams ticker days interval) (degradedParams ticker) with
  | (Except.ok klines, calls) =>
    let series := seriesOf klines
    if series.isEmpty then
      { res := .err 502 "History not available" none, st := st, calls := calls }
    else
      let volume24h := if klines.isEmpty then JsVal.null else volume24hOf klines
      let payload : HistoryPayload :=
        { symbol := symbol, days := days, interval := interval, points := series,
          volume24h := volume24h, source := historySource cfg ticker days interval }
      { res := .ok payload false none,
        st := { st with historyCache := mapSet st.historyCache cacheKey ⟨payload, now⟩ },
        calls := calls }
  | (Except.error e, calls) =>
    { res := historyCatch st now cfg ticker symbol days interval cached e,
      st := st, calls := calls }

/-- The /history Express handler of server.js, as a function of the
configuration, the upstream oracle, the cache state, the request and the
current time. -/
def historyHandler (cfg : Config) (fetch : KParams → Except UpErr (List Row))
    (st : St) (req : HistoryReq) (now : Int) : HistoryStep :=
  let symbol := jsToUpper (req.symbol.getD "BTC")
  let days := req.days.getD 1
  let interval := req.interval.getD "hourly"
  if cfg.mockHistory then
    { res := .ok
        { symbol := symbol, days := days, interval := interval,
          points := mockPoints now, volume24h := .num 2500000,
          source := "mock-history" } true (some mockWarning),
      st := st, calls := [] }
  else
    match symbolToId symbol with
    | none => { res := .err 400 "Unsupported symbol" none, st := st, calls := [] }
    | some ticker =>
      let cacheKey := histKey ticker days interval
      match mapGet st.historyCache cacheKey with
      | some entry =>
        if now - entry.timestamp < cfg.historyCacheTtlMs then
          { res := .ok entry.payload true none, st := st, calls := [] }
        else
          historyFetchPath cfg fetch st now ticker symbol days interval cacheKey
            (some entry)
      | none =>
        historyFetchPath cfg fetch st now ticker symbol days interval cacheKey none

/-- The query parameters of a /price request (absent means default). -/
structure PriceReq where
  symbol : Option String
  currency : Option String

/-- The JSON body of a successful upstream price response: the `price`,
`priceAvg` and `avgPrice` fields, each possibly absent. -/
structure PriceData where
  price : JsVal
  priceAvg : JsVal
  avgPrice : JsVal
deriving DecidableEq, Repr

/-- Which upstream price endpoint a call went to. -/
inductive PriceCall where
  | primary : PriceCall
  | avg : PriceCall
deriving DecidableEq, Repr

/-- A response from the /price handler. -/
inductive PriceRes where
  | ok (status : Nat) (p : PricePayload) (cached : Bool) (warning : Option String) :
      PriceRes
  | err (status : Nat) (msg : String) (details : Option String) : PriceRes
deriving DecidableEq, Repr

/-- One /price handler run: response, state after, upstream calls issued. -/
structure PriceStep where
  res : PriceRes
  st : St
  calls : List PriceCall

/-- Warning when a rate limit makes /price serve the stale cache. -/
def rateLimitPriceWarning : String := "Upstream rate limit hit, serving cached price."

/-- The try block of /price after a miss or stale cache entry: primary
fetch, unconditional one-shot avgPrice retry on failure, extraction of
the price field, the (unreachable) undefined guard, cache write. -/
def priceFetchPath (cfg : Config) (fetchPrimary fetchAvg : Except UpErr PriceData)
    (st : St) (now : Int) (symbol currency ticker cacheKey : String)
    (cached : Option PricePayload) : PriceStep :=
  let resolved : Except UpErr PriceData × List PriceCall :=
    match fetchPrimary with
    | .ok d => (.ok d, [.primary])
    | .error _ => (fetchAvg, [.primary, .avg])
  match resolved with
  | (Except.ok data, calls) =>
    let price := toNumber (jsOr data.price (jsOr data.priceAvg data.avgPrice))
    if price = JsVal.undef then
      { res := .err 502 "Price not available" none, st := st, calls := calls }
    else
      let payload : PricePayload :=
        { symbol := symbol, currency := jsToUpper currency, price := price,
          source := cfg.priceApiBase, timestamp := now }
      { res := .ok 200 payload false none,
        st := { st with priceCache := mapSet st.priceCache cacheKey payload },
        calls := calls }
  | (Except.error e, calls) =>
    let status := effStatus e
    match cached with
    | some p =>
      if status = 429 then
        { res := .ok 200 p true (some rateLimitPriceWarning), st := st, calls := calls }
      else
        { res := .err status "Upstream request failed" e.data, st := st, calls := calls }
    | none =>
      { res := .err status "Upstream request failed" e.data, st := st, calls := calls }

/-- The /price Express handler of server.js.  `fetchPrimary` and
`fetchAvg` are the outcomes of the two upstream endpoints. -/
def priceHandler (cfg : Config) (fetchPrimary fetchAvg : Except UpErr PriceData)
    (st : St) (req : PriceReq) (now : Int) : PriceStep :=
  let symbol := jsToUpper (req.symbol.getD "BTC")
  let currency := jsToUpper (req.currency.getD "USD")
  match symbolToId symbol with
  | none => { res := .err 400 "Unsupported symbol" none, st := st, calls := [] }
  | some ticker =>
    if currency ≠ "USD" then
      { res := .err 400 "Only USD quotes are supported in this demo." none,
        st := st, calls := [] }
    else
      let cacheKey := priceKey ticker currency
      match mapGet st.priceCache cacheKey with
      | some p =>
        if now - p.timestamp < cfg.cacheTtlMs then
          { res := .ok 200 p true none, st := st, calls := [] }
        else
          priceFetchPath cfg fetchPrimary fetchAvg st now symbol currency ticker
            cacheKey (some p)
      | none =>
        priceFetchPath cfg fetchPrimary fetchAvg st now symbol currency ticker
          cacheKey none

/-- One externally triggered request against the service, with its
environment (configuration, upstream outcomes, clock). -/
inductive Event where
  | hist (cfg : Config) (fetch : KParams → Except UpErr (List Row))
      (req : HistoryReq) (now : Int) : Event
  | price (cfg : Config) (fp fa : Except UpErr PriceData)
      (req : PriceReq) (now : Int) : Event

/-- The state transition of one event. -/
def stepEvent (st : St) : Event → St
  | .hist cfg fetch req now => (historyHandler cfg fetch st req now).st
  | .price cfg fp fa req now => (priceHandler cfg fp fa st req now).st

/-- Run a sequence of requests from a given state. -/
def runEvents (st : St) (evs : List Event) : St := evs.foldl stepEvent st

/-- The state of the freshly started process: both caches empty. -/
def initialSt : St := ⟨[], []⟩

/-- Invariant: every payload stored in the history cache has a non-empty
point sequence. -/
def histInvariant (st : St) : Prop :=
  ∀ p ∈ st.historyCache, p.2.payload.points ≠ []

/-- A default configuration matching the defaults of server.js:
60 s price TTL, 300 s history TTL, mock mode off, Binance base URLs. -/
def cfgDefault : Config :=
  { cacheTtlMs := 60000, historyCacheTtlMs := 300000, mockHistory := false,
    priceApiBase := "https://api.binance.com/api/v3/ticker/price",
    historyApiBase := "https://api.binance.com/api/v3/klines" }

/-- The default configuration with the mock-history flag enabled. -/
def cfgMock : Config := { cfgDefault with mockHistory := true }

/-- An upstream oracle that answers every klines request with HTTP 429. -/
def fetch429 : KParams → Except UpErr (List Row) := fun _ => .error ⟨some 429, none⟩

/-- The state after a successful `/price?symbol=BTC&currency=USD` call at
time 1000000 against an upstream quoting 88000: the spot payload sits in
the price cache under the key `BTCUSDT:USD`. -/
def c1PriceSt : St :=
  (priceHandler cfgDefault (.ok ⟨.num 88000, .undef, .undef⟩) (.error ⟨none, none⟩)
    initialSt ⟨some "BTC", some "USD"⟩ 1000000).st

/-- A concrete history-cache entry written at time 0. -/
def c2Entry : HistoryCacheEntry :=
  ⟨⟨"BTC", 1, "hourly", [⟨.num 5, .num 6⟩], .num 7, "cached-source"⟩, 0⟩

/-- A state whose history cache holds `c2Entry` under the key of
`/history?symbol=BTC&days=1&interval=hourly`. -/
def c2St : St := ⟨[], [(histKey "BTCUSDT" 1 "hourly", c2Entry)]⟩

/-- JavaScript `Number(-)` never evaluates to `undefined`. -/
theorem toNumber_ne_undef (v : JsVal) : toNumber v ≠ JsVal.undef := by
  cases v <;> simp [toNumber]

/-- `Number(q || 0)` is `q` for every finite number `q`. -/
theorem toNumber_jsOr_num_zero (q : ℚ) :
    toNumber (jsOr (.num q) (.num 0)) = .num q := by
  by_cases h : q = 0 <;> simp [jsOr, truthy, toNumber, h]

/-- Reading a key just written returns the written value. -/
theorem mapGet_mapSet_self {α : Type} (m : List (String × α)) (k : String) (v : α) :
    mapGet (mapSet m k v) k = some v := by
  unfold mapGet mapSet
  rw [List.find?_cons_of_pos _ (by simp)]
  rfl

/-- A successful cache read comes from an entry of the underlying list. -/
theorem mapGet_mem {α : Type} {m : List (String × α)} {k : String} {v : α}
    (h : mapGet m k = some v) : ∃ p ∈ m, p.2 = v := by
  unfold mapGet at h
  rcases Option.map_eq_some'.mp h with ⟨p, hp, hv⟩
  exact ⟨p, List.mem_of_find?_eq_some hp, hv⟩

/-- The try block of /history always issues at least one upstream call. -/
theorem resolvedFetch_calls_ne_nil (fetch : KParams → Except UpErr (List Row))
    (p d : KParams) : (resolvedFetch fetch p d).2 ≠ [] := by
  unfold resolvedFetch
  cases hf : fetch p with
  | ok r => simp
  | error e => by_cases h429 : effStatus e = 429 <;> simp [h429]

/-- The upstream calls of the /history fetch path are exactly those of
its try block. -/
theorem historyFetchPath_calls (cfg : Config)
    (fetch : KParams → Except UpErr (List Row)) (st : St) (now : Int)
    (ticker symbol : String) (days : Nat) (interval : String) (cacheKey : String)
    (cached : Option HistoryCacheEntry) :
    (historyFetchPath cfg fetch st now ticker symbol days interval cacheKey cached).calls =
      (resolvedFetch fetch (primaryParams ticker days interval) (degradedParams ticker)).2 := by
  unfold historyFetchPath
  rcases h : resolvedFetch fetch (primaryParams ticker days interval) (degradedParams ticker)
    with ⟨rsp, calls⟩
  cases rsp with
  | ok klines => simp only []; split <;> rfl
  | error e => rfl

/-- Overwriting a key with an entry of non-empty points preserves the
non-empty-points property of the history cache. -/
theorem mapSet_points_invariant {m : List (String × HistoryCacheEntry)} {k : String}
    {e : HistoryCacheEntry} (h : ∀ p ∈ m, p.2.payload.points ≠ [])
    (he : e.payload.points ≠ []) :
    ∀ p ∈ mapSet m k e, p.2.payload.points ≠ [] := by
  intro p hp
  unfold mapSet at hp
  rcases List.mem_cons.mp hp with hpe | hp'
  · subst hpe; exact he
  · exact h p (List.mem_of_mem_filter hp')

/-- The synthetic flat fallback series has exactly 12 points. -/
theorem syntheticPoints_length (now : Int) (price : JsVal) :
    (syntheticPoints now price).length = 12 := rfl

/-- The synthetic flat fallback series is non-empty. -/
theorem syntheticPoints_ne_nil (now : Int) (price : JsVal) :
    syntheticPoints now price ≠ [] := by
  intro hnil
  have := syntheticPoints_length now price
  rw [hnil] at this
  simp at this

/-- Under a resolvable symbol, mock mode off, and no fresh cache entry,
the /history handler runs its fetch path on the computed key. -/
theorem historyHandler_run_fetchPath (cfg : Config)
    (fetch : KParams → Except UpErr (List Row)) (st : St) (s intv : String)
    (days : Nat) (now : Int) (ticker : String)
    (hm : cfg.mockHistory = false)
    (hs : symbolToId (jsToUpper s) = some ticker)
    (hnf : ∀ entry, mapGet st.historyCache (histKey ticker days intv) = some entry →
      ¬ now - entry.timestamp < cfg.historyCacheTtlMs) :
    historyHandler cfg fetch st ⟨some s, some days, some intv⟩ now =
      historyFetchPath cfg fetch st now ticker (jsToUpper s) days intv
        (histKey ticker days intv) (mapGet st.historyCache (histKey ticker days intv)) := by
  unfold historyHandler
  simp only [Option.getD_some, hm, Bool.false_eq_true, if_false, hs]
  cases hc : mapGet st.historyCache (histKey ticker days intv) with
  | none => rfl
  | some entry => simp [hnf entry hc]

/-- Under a resolvable symbol, default (USD) currency and no fresh cache
entry, the /price handler runs its fetch path on the computed key. -/
theorem priceHandler_run_fetchPath (cfg : Config)
    (fp fa : Except UpErr PriceData) (st : St) (s : String) (now : Int)
    (ticker : String)
    (hs : symbolToId (jsToUpper s) = some ticker)
    (hnf : ∀ p, mapGet st.priceCache (priceKey ticker "USD") = some p →
      ¬ now - p.timestamp < cfg.cacheTtlMs) :
    priceHandler cfg fp fa st ⟨some s, none⟩ now =
      priceFetchPath cfg fp fa st now (jsToUpper s) "USD" ticker (priceKey ticker "USD")
        (mapGet st.priceCache (priceKey ticker "USD")) := by
  unfold priceHandler
  have hcur : jsToUpper "USD" = "USD" := by decide
  simp only [Option.getD_some, Option.getD_none, hcur, hs]
  simp only [ne_eq, not_true_eq_false, if_false, ite_false]
  cases hc : mapGet st.priceCache (priceKey ticker "USD") with
  | none => rfl
  | some p => simp [hnf p hc]

/-- C1: the spec's synthetic flat-series fallback never fires.  After a
successful /price call for BTC at 88000, the spot payload sits in the
price cache under the key `BTCUSDT:USD` (and under nothing else), yet the
/history 429 fallback looks up the lowercase key `BTCUSDT:usd`; with no
history cache entry and an upstream answering 429 to both the primary
and the degraded fetch, /history therefore returns the generic 429 error
instead of the 12-point flat series the spec promises. -/
theorem c1_spot_key_mismatch :
    mapGet c1PriceSt.priceCache (priceKey "BTCUSDT" "USD") =
      some ⟨"BTC", "USD", .num 88000, cfgDefault.priceApiBase, 1000000⟩ ∧
    c1PriceSt.historyCache = [] ∧
    mapGet c1PriceSt.priceCache (spotKey "BTCUSDT") = none ∧
    priceKey "BTCUSDT" "USD" ≠ spotKey "BTCUSDT" ∧
    (historyHandler cfgDefault fetch429 c1PriceSt
      ⟨some "BTC", some 1, some "hourly"⟩ 1000060).res =
      .err 429 "History request failed" none := by
  refine ⟨by decide, by decide, by decide, by decide, by decide⟩

/-- C2 counterexample: a history cache entry exists for the computed key,
the upstream fetch fails with HTTP 500, and the handler propagates the
500 error instead of returning the cached payload. -/
theorem c2_counterexample :
    mapGet c2St.historyCache (histKey "BTCUSDT" 1 "hourly") = some c2Entry ∧
    (historyHandler cfgDefault (fun _ => .error ⟨some 500, none⟩) c2St
      ⟨some "BTC", some 1, some "hourly"⟩ 1000000).res =
      .err 500 "History request failed" none := by
  refine ⟨by decide, by decide⟩

/-- C2 (amended): for every /history request with a (necessarily stale,
else no fetch happens) cache entry for the computed key whose upstream
fetch fails, the handler returns the cached payload with `cached=true`
and a warning exactly when the effective failure status is 429, 401 or
403; any other failure status (500, timeout, other 5xx) propagates the
upstream error instead. -/
theorem c2_stale_fallback_statuses (cfg : Config)
    (fetch : KParams → Except UpErr (List Row)) (st : St) (s intv : String)
    (days : Nat) (now : Int) (ticker : String) (entry : HistoryCacheEntry)
    (e : UpErr)
    (hm : cfg.mockHistory = false)
    (hs : symbolToId (jsToUpper s) = some ticker)
    (hc : mapGet st.historyCache (histKey ticker days intv) = some entry)
    (hstale : ¬ now - entry.timestamp < cfg.historyCacheTtlMs)
    (hf : (resolvedFetch fetch (primaryParams ticker days intv) (degradedParams ticker)).1
      = .error e) :
    ((effStatus e = 429 ∨ effStatus e = 401 ∨ effStatus e = 403) →
      (historyHandler cfg fetch st ⟨some s, some days, some intv⟩ now).res =
        .ok entry.payload true
          (some (if effStatus e = 429 then rateLimitHistWarning else rejectedHistWarning)) ∧
      (historyHandler cfg fetch st ⟨some s, some days, some intv⟩ now).st = st) ∧
    (¬ (effStatus e = 429 ∨ effStatus e = 401 ∨ effStatus e = 403) →
      (historyHandler cfg fetch st ⟨some s, some days, some intv⟩ now).res =
        .err (effStatus e) "History request failed" e.data ∧
      (historyHandler cfg fetch st ⟨some s, some days, some intv⟩ now).st = st) := by
  have hrun := historyHandler_run_fetchPath cfg fetch st s intv days now ticker hm hs
    (by intro en hen; rw [hen] at hc; cases hc; exact hstale)
  rw [hc] at hrun
  rw [hrun]
  unfold historyFetchPath
  rcases hrf : resolvedFetch fetch (primaryParams ticker days intv) (degradedParams ticker)
    with ⟨rsp, calls⟩
  rw [hrf] at hf
  simp only at hf
  subst hf
  constructor
  · intro hin
    unfold historyCatch
    simp only [if_pos hin]
    exact ⟨by trivial, by trivial⟩
  · intro hout
    unfold historyCatch historyErrTail
    have h401 : ¬ effStatus e = 401 := fun h => hout (Or.inr (Or.inl h))
    simp only [if_neg hout, if_neg h401]
    exact ⟨by trivial, by trivial⟩

/-- C3 counterexample: with MOCK_HISTORY enabled, a symbol absent from
the symbol table does not get the 400 UnsupportedSymbol error — the mock
branch runs before the symbol check and returns the demo series. -/
theorem c3_counterexample :
    symbolToId "DOGE" = none ∧
    (historyHandler cfgMock (fun _ => .error ⟨none, none⟩) initialSt
      ⟨some "DOGE", some 1, some "hourly"⟩ 0).res =
      .ok ⟨"DOGE", 1, "hourly", mockPoints 0, .num 2500000, "mock-history"⟩ true
        (some mockWarning) := by
  refine ⟨by decide, by decide⟩

/-- C3 (amended): for every symbol not in the SymbolTable, /price always
returns 400 UnsupportedSymbol before any cache read or upstream call, and
/history does so whenever the mock-history flag is disabled; with the
flag enabled the mock branch precedes the symbol check, so /history
returns the mock series instead. -/
theorem c3_unsupported_symbol (cfg : Config)
    (fetch : KParams → Except UpErr (List Row)) (fp fa : Except UpErr PriceData)
    (st : St) (s cur intv : String) (days : Nat) (now : Int)
    (hm : cfg.mockHistory = false)
    (hs : symbolToId (jsToUpper s) = none) :
    historyHandler cfg fetch st ⟨some s, some days, some intv⟩ now =
      ⟨.err 400 "Unsupported symbol" none, st, []⟩ ∧
    priceHandler cfg fp fa st ⟨some s, some cur⟩ now =
      ⟨.err 400 "Unsupported symbol" none, st, []⟩ := by
  constructor
  · unfold historyHandler
    simp [hm, hs]
  · unfold priceHandler
    simp [hs]

/-- C3 witness: concrete instance for the symbol `DOGE` with mock mode
off — both endpoints answer 400 with no cache or upstream activity. -/
theorem c3_unsupported_symbol_witness :
    historyHandler cfgDefault (fun _ => .error ⟨none, none⟩) initialSt
      ⟨some "DOGE", some 1, some "hourly"⟩ 0 =
      ⟨.err 400 "Unsupported symbol" none, initialSt, []⟩ ∧
    priceHandler cfgDefault (.error ⟨none, none⟩) (.error ⟨none, none⟩) initialSt
      ⟨some "DOGE", some "USD"⟩ 0 =
      ⟨.err 400 "Unsupported symbol" none, initialSt, []⟩ :=
  c3_unsupported_symbol cfgDefault (fun _ => .error ⟨none, none⟩)
    (.error ⟨none, none⟩) (.error ⟨none, none⟩) initialSt "DOGE" "USD" "hourly" 1 0
    rfl (by decide)

/-- `Number(-)` is the identity on finite numbers. -/
theorem toNumber_num (q : ℚ) : toNumber (.num q) = .num q := rfl

/-- The /price fetch path always issues at least one upstream call. -/
theorem priceFetchPath_calls_ne_nil (cfg : Config)
    (fp fa : Except UpErr PriceData) (st : St) (now : Int)
    (symbol currency ticker cacheKey : String) (cached : Option PricePayload) :
    (priceFetchPath cfg fp fa st now symbol currency ticker cacheKey cached).calls ≠ [] := by
  unfold priceFetchPath
  cases fp <;> cases fa <;> cases cached <;> dsimp only <;> (repeat' split) <;> simp

/-- C4: a cache entry written at time T is classified fresh and served
with `cached=true` without any upstream call for reads at `T+w, w<W`
(price TTL for /price, history TTL for /history), and at `w ≥ W` it is
classified stale and the handler dispatches an upstream fetch. -/
theorem c4_ttl_window (cfg : Config)
    (fetch : KParams → Except UpErr (List Row)) (fp fa : Except UpErr PriceData)
    (st : St) (s intv : String) (days : Nat) (T w : Int) (ticker : String)
    (pp : PricePayload) (he : HistoryCacheEntry)
    (hm : cfg.mockHistory = false)
    (hs : symbolToId (jsToUpper s) = some ticker)
    (hpc : mapGet st.priceCache (priceKey ticker "USD") = some pp)
    (hpT : pp.timestamp = T)
    (hhc : mapGet st.historyCache (histKey ticker days intv) = some he)
    (hhT : he.timestamp = T) :
    (w < cfg.cacheTtlMs →
      priceHandler cfg fp fa st ⟨some s, none⟩ (T + w) =
        ⟨.ok 200 pp true none, st, []⟩) ∧
    (cfg.cacheTtlMs ≤ w →
      (priceHandler cfg fp fa st ⟨some s, none⟩ (T + w)).calls ≠ []) ∧
    (w < cfg.historyCacheTtlMs →
      historyHandler cfg fetch st ⟨some s, some days, some intv⟩ (T + w) =
        ⟨.ok he.payload true none, st, []⟩) ∧
    (cfg.historyCacheTtlMs ≤ w →
      (historyHandler cfg fetch st ⟨some s, some days, some intv⟩ (T + w)).calls ≠ []) := by
  have hcur : jsToUpper "USD" = "USD" := by decide
  refine ⟨?_, ?_, ?_, ?_⟩
  · intro hw
    unfold priceHandler
    simp [hcur, hs, hpc, hpT, hw]
  · intro hw
    rw [priceHandler_run_fetchPath cfg fp fa st s (T + w) ticker hs
      (by intro p hp; rw [hp] at hpc; cases hpc; rw [hpT]; omega)]
    exact priceFetchPath_calls_ne_nil _ _ _ _ _ _ _ _ _ _
  · intro hw
    unfold historyHandler
    simp [hm, hs, hhc, hhT, hw]
  · intro hw
    rw [historyHandler_run_fetchPath cfg fetch st s intv days (T + w) ticker hm hs
      (by intro en hen; rw [hen] at hhc; cases hhc; rw [hhT]; omega)]
    rw [historyFetchPath_calls]
    exact resolvedFetch_calls_ne_nil fetch _ _

/-- C4 witness: with both caches holding entries written at T = 0 and the
default TTLs, a read at w = 1000 is fresh on both endpoints and a read at
w = 10^9 dispatches an upstream call on both. -/
theorem c4_ttl_window_witness :
    (priceHandler cfgDefault (.error ⟨none, none⟩) (.error ⟨none, none⟩)
      ⟨[(priceKey "BTCUSDT" "USD", ⟨"BTC", "USD", .num 100, "src", 0⟩)],
       [(histKey "BTCUSDT" 1 "hourly", c2Entry)]⟩ ⟨some "BTC", none⟩ (0 + 1000) =
      ⟨.ok 200 ⟨"BTC", "USD", .num 100, "src", 0⟩ true none,
       ⟨[(priceKey "BTCUSDT" "USD", ⟨"BTC", "USD", .num 100, "src", 0⟩)],
        [(histKey "BTCUSDT" 1 "hourly", c2Entry)]⟩, []⟩) ∧
    (historyHandler cfgDefault fetch429
      ⟨[(priceKey "BTCUSDT" "USD", ⟨"BTC", "USD", .num 100, "src", 0⟩)],
       [(histKey "BTCUSDT" 1 "hourly", c2Entry)]⟩
      ⟨some "BTC", some 1, some "hourly"⟩ (0 + 1000000000)).calls ≠ [] := by
  have h := c4_ttl_window cfgDefault fetch429 (.error ⟨none, none⟩) (.error ⟨none, none⟩)
    ⟨[(priceKey "BTCUSDT" "USD", ⟨"BTC", "USD", .num 100, "src", 0⟩)],
     [(histKey "BTCUSDT" 1 "hourly", c2Entry)]⟩ "BTC" "hourly" 1 0 1000 "BTCUSDT"
    ⟨"BTC", "USD", .num 100, "src", 0⟩ c2Entry rfl (by decide) (by decide) rfl
    (by decide) rfl
  have h' := c4_ttl_window cfgDefault fetch429 (.error ⟨none, none⟩) (.error ⟨none, none⟩)
    ⟨[(priceKey "BTCUSDT" "USD", ⟨"BTC", "USD", .num 100, "src", 0⟩)],
     [(histKey "BTCUSDT" 1 "hourly", c2Entry)]⟩ "BTC" "hourly" 1 0 1000000000 "BTCUSDT"
    ⟨"BTC", "USD", .num 100, "src", 0⟩ c2Entry rfl (by decide) (by decide) rfl
    (by decide) rfl
  exact ⟨h.1 (by decide), h'.2.2.2 (by decide)⟩

/-- C5: on a successful klines fetch (primary or degraded alike, both
flow through `resolvedFetch`), each row contributes the point
`{t: k[0], price: Number(k[4])}` and `Number(k[7] || 0)` to the volume;
in particular two rows `[t0,_,_,_,c0,_,_,q0]`, `[t1,_,_,_,c1,_,_,q1]`
yield points `[{t0,c0},{t1,c1}]` and `volume24h = q0 + q1`. -/
theorem c5_kline_transform (cfg : Config)
    (fetch : KParams → Except UpErr (List Row)) (st : St) (s intv : String)
    (days : Nat) (now : Int) (ticker : String)
    (t0 c0 q0 t1 c1 q1 : ℚ) (x1 x2 x3 x5 x6 y1 y2 y3 y5 y6 : JsVal)
    (hm : cfg.mockHistory = false)
    (hs : symbolToId (jsToUpper s) = some ticker)
    (hmiss : mapGet st.historyCache (histKey ticker days intv) = none)
    (hf : (resolvedFetch fetch (primaryParams ticker days intv) (degradedParams ticker)).1 =
      .ok [[.num t0, x1, x2, x3, .num c0, x5, x6, .num q0],
           [.num t1, y1, y2, y3, .num c1, y5, y6, .num q1]]) :
    (∀ (z1 z2 z3 z5 z6 : JsVal) (t c q : ℚ) (rest : List JsVal),
      rowGet (JsVal.num t :: z1 :: z2 :: z3 :: JsVal.num c :: z5 :: z6 ::
        JsVal.num q :: rest) 0 = .num t ∧
      toNumber (rowGet (JsVal.num t :: z1 :: z2 :: z3 :: JsVal.num c :: z5 :: z6 ::
        JsVal.num q :: rest) 4) = .num c ∧
      toNumber (jsOr (rowGet (JsVal.num t :: z1 :: z2 :: z3 :: JsVal.num c :: z5 :: z6 ::
        JsVal.num q :: rest) 7) (.num 0)) = .num q) ∧
    (historyHandler cfg fetch st ⟨some s, some days, some intv⟩ now).res =
      .ok ⟨jsToUpper s, days, intv,
        [⟨.num t0, .num c0⟩, ⟨.num t1, .num c1⟩], .num (q0 + q1),
        historySource cfg ticker days intv⟩ false none := by
  constructor
  · intro z1 z2 z3 z5 z6 t c q rest
    exact ⟨rfl, rfl, toNumber_jsOr_num_zero q⟩
  · rw [historyHandler_run_fetchPath cfg fetch st s intv days now ticker hm hs
      (by intro en hen; rw [hen] at hmiss; cases hmiss)]
    rw [hmiss]
    unfold historyFetchPath
    rcases hrf : resolvedFetch fetch (primaryParams ticker days intv) (degradedParams ticker)
      with ⟨rsp, calls⟩
    rw [hrf] at hf
    simp only at hf
    subst hf
    simp only [seriesOf, volume24hOf, List.map_cons, List.map_nil, List.foldl_cons,
      List.foldl_nil, toNumber_jsOr_num_zero, toNumber_num, rowGet, List.getD_cons_zero,
      List.getD_cons_succ, jsAdd, List.isEmpty_cons, Bool.false_eq_true, if_false,
      ite_false]
    norm_num

/-- C5 witness: concrete two-row klines response with t0=1, c0=2, q0=3,
t1=4, c1=5, q1=6 yields points [(1,2),(4,5)] and volume 9. -/
theorem c5_kline_transform_witness :
    (historyHandler cfgDefault (fun _ => .ok
        [[.num 1, .undef, .undef, .undef, .num 2, .undef, .undef, .num 3],
         [.num 4, .undef, .undef, .undef, .num 5, .undef, .undef, .num 6]])
      initialSt ⟨some "BTC", some 1, some "hourly"⟩ 0).res =
      .ok ⟨"BTC", 1, "hourly", [⟨.num 1, .num 2⟩, ⟨.num 4, .num 5⟩], .num 9,
        historySource cfgDefault "BTCUSDT" 1 "hourly"⟩ false none := by
  have h := (c5_kline_transform cfgDefault (fun _ => .ok
      [[.num 1, .undef, .undef, .undef, .num 2, .undef, .undef, .num 3],
       [.num 4, .undef, .undef, .undef, .num 5, .undef, .undef, .num 6]])
    initialSt "BTC" "hourly" 1 0 "BTCUSDT" 1 2 3 4 5 6
    .undef .undef .undef .undef .undef .undef .undef .undef .undef .undef
    rfl (by decide) (by decide) rfl).2
  rw [h]
  simp only [show (3 + 6 : ℚ) = 9 from by norm_num,
    show jsToUpper "BTC" = "BTC" from by decide]

/-- C6: when /price reaches its catch block (primary fetch failed, then
the one avgPrice fallback attempt failed) while a cache entry exists for
the key, an effective status of 429 serves that entry with HTTP 200,
`cached=true` and the rate-limit warning; any other failure status
propagates the upstream status and error details. -/
theorem c6_price_429_fallback (cfg : Config) (e1 e : UpErr) (st : St) (s : String)
    (now : Int) (ticker : String) (pp : PricePayload)
    (hs : symbolToId (jsToUpper s) = some ticker)
    (hc : mapGet st.priceCache (priceKey ticker "USD") = some pp)
    (hstale : ¬ now - pp.timestamp < cfg.cacheTtlMs) :
    (effStatus e = 429 →
      priceHandler cfg (.error e1) (.error e) st ⟨some s, none⟩ now =
        ⟨.ok 200 pp true (some rateLimitPriceWarning), st, [.primary, .avg]⟩) ∧
    (effStatus e ≠ 429 →
      priceHandler cfg (.error e1) (.error e) st ⟨some s, none⟩ now =
        ⟨.err (effStatus e) "Upstream request failed" e.data, st, [.primary, .avg]⟩) := by
  have hrun := priceHandler_run_fetchPath cfg (.error e1) (.error e) st s now ticker hs
    (by intro p hp; rw [hp] at hc; cases hc; exact hstale)
  rw [hc] at hrun
  rw [hrun]
  unfold priceFetchPath
  constructor
  · intro h429
    dsimp only
    rw [if_pos h429]
  · intro hne
    dsimp only
    rw [if_neg hne]

/-- C6 witness: a stale cached BTC price is served with HTTP 200 and the
rate-limit warning when the avgPrice retry fails with 429. -/
theorem c6_price_429_fallback_witness :
    priceHandler cfgDefault (.error ⟨some 500, none⟩) (.error ⟨some 429, none⟩)
      ⟨[(priceKey "BTCUSDT" "USD", ⟨"BTC", "USD", .num 100, "src", 0⟩)], []⟩
      ⟨some "BTC", none⟩ 1000000 =
      ⟨.ok 200 ⟨"BTC", "USD", .num 100, "src", 0⟩ true (some rateLimitPriceWarning),
       ⟨[(priceKey "BTCUSDT" "USD", ⟨"BTC", "USD", .num 100, "src", 0⟩)], []⟩,
       [.primary, .avg]⟩ :=
  (c6_price_429_fallback cfgDefault ⟨some 500, none⟩ ⟨some 429, none⟩
    ⟨[(priceKey "BTCUSDT" "USD", ⟨"BTC", "USD", .num 100, "src", 0⟩)], []⟩
    "BTC" 1000000 "BTCUSDT" ⟨"BTC", "USD", .num 100, "src", 0⟩
    (by decide) (by decide) (by decide)).1 rfl

/-- C7: when the primary klines fetch fails with effective status 429,
the handler issues exactly one retry, with the fixed degraded parameters
interval `1d` and limit 30; the primary request itself uses the mapped
interval (hourly to 1h, daily to 1d, anything else to 1h) and the limit
`min(days*24, 1000)` for 1h or `min(days, 1000)` for 1d. -/
theorem c7_degraded_retry (cfg : Config)
    (fetch : KParams → Except UpErr (List Row)) (st : St) (s intv : String)
    (days : Nat) (now : Int) (ticker : String) (e : UpErr)
    (hm : cfg.mockHistory = false)
    (hs : symbolToId (jsToUpper s) = some ticker)
    (hnf : ∀ entry, mapGet st.historyCache (histKey ticker days intv) = some entry →
      ¬ now - entry.timestamp < cfg.historyCacheTtlMs)
    (hp : fetch (primaryParams ticker days intv) = .error e)
    (h429 : effStatus e = 429) :
    (historyHandler cfg fetch st ⟨some s, some days, some intv⟩ now).calls =
      [primaryParams ticker days intv, degradedParams ticker] ∧
    primaryParams ticker days intv =
      ⟨ticker, binanceIntervalOf intv, klineLimitOf days (binanceIntervalOf intv)⟩ ∧
    degradedParams ticker = ⟨ticker, "1d", 30⟩ ∧
    binanceIntervalOf "hourly" = "1h" ∧
    binanceIntervalOf "daily" = "1d" ∧
    (intv ≠ "hourly" → intv ≠ "daily" → binanceIntervalOf intv = "1h") ∧
    (∀ d : Nat, klineLimitOf d "1h" = min (d * 24) 1000 ∧
      klineLimitOf d "1d" = min d 1000) := by
  refine ⟨?_, rfl, rfl, by decide, by decide, ?_, ?_⟩
  · rw [historyHandler_run_fetchPath cfg fetch st s intv days now ticker hm hs hnf]
    rw [historyFetchPath_calls]
    unfold resolvedFetch
    rw [hp]
    dsimp only
    rw [if_pos h429]
  · intro h1 h2
    unfold binanceIntervalOf
    rw [if_neg h1, if_neg h2]
  · intro d
    constructor
    · rfl
    · unfold klineLimitOf
      rw [if_neg (by decide)]

/-- C7 witness: for days=2 hourly against an upstream always answering
429, the handler issues exactly the primary 1h/48 request and then the
single degraded 1d/30 retry. -/
theorem c7_degraded_retry_witness :
    (historyHandler cfgDefault fetch429 initialSt
      ⟨some "BTC", some 2, some "hourly"⟩ 0).calls =
      [⟨"BTCUSDT", "1h", 48⟩, ⟨"BTCUSDT", "1d", 30⟩] :=
  (c7_degraded_retry cfgDefault fetch429 initialSt "BTC" "hourly" 2 0 "BTCUSDT"
    ⟨some 429, none⟩ rfl (by decide)
    (by intro en hen; simp [mapGet, initialSt] at hen) rfl rfl).1

/-- C8: a successful klines fetch whose row list is empty makes /history
answer 502 with error message, and leaves the history cache (the whole
state) unchanged. -/
theorem c8_empty_series (cfg : Config)
    (fetch : KParams → Except UpErr (List Row)) (st : St) (s intv : String)
    (days : Nat) (now : Int) (ticker : String)
    (hm : cfg.mockHistory = false)
    (hs : symbolToId (jsToUpper s) = some ticker)
    (hnf : ∀ entry, mapGet st.historyCache (histKey ticker days intv) = some entry →
      ¬ now - entry.timestamp < cfg.historyCacheTtlMs)
    (hf : (resolvedFetch fetch (primaryParams ticker days intv) (degradedParams ticker)).1 =
      .ok []) :
    (historyHandler cfg fetch st ⟨some s, some days, some intv⟩ now).res =
      .err 502 "History not available" none ∧
    (historyHandler cfg fetch st ⟨some s, some days, some intv⟩ now).st = st := by
  rw [historyHandler_run_fetchPath cfg fetch st s intv days now ticker hm hs hnf]
  unfold historyFetchPath
  rcases hrf : resolvedFetch fetch (primaryParams ticker days intv) (degradedParams ticker)
    with ⟨rsp, calls⟩
  rw [hrf] at hf
  simp only at hf
  subst hf
  exact ⟨rfl, rfl⟩

/-- C8 witness: an upstream answering with an empty kline array yields
the 502 response and no cache write. -/
theorem c8_empty_series_witness :
    (historyHandler cfgDefault (fun _ => .ok []) initialSt
      ⟨some "BTC", some 1, some "hourly"⟩ 0).res =
      .err 502 "History not available" none :=
  (c8_empty_series cfgDefault (fun _ => .ok []) initialSt "BTC" "hourly" 1 0 "BTCUSDT"
    rfl (by decide) (by intro en hen; simp [mapGet, initialSt] at hen) rfl).1

/-- C9: `Number(-)` never returns `undefined`, so the /price guard
`price === undefined` never fires: a successful upstream response with
none of the fields price, priceAvg, avgPrice makes the handler return —
and write to the price cache — a payload whose price is NaN, instead of
reaching the 502 Price-not-available branch. -/
theorem c9_price_nan_unreachable_502 (cfg : Config) (fa : Except UpErr PriceData)
    (st : St) (s : String) (now : Int) (ticker : String)
    (hs : symbolToId (jsToUpper s) = some ticker)
    (hnf : ∀ p, mapGet st.priceCache (priceKey ticker "USD") = some p →
      ¬ now - p.timestamp < cfg.cacheTtlMs) :
    (∀ data : PriceData,
      toNumber (jsOr data.price (jsOr data.priceAvg data.avgPrice)) ≠ JsVal.undef) ∧
    (priceHandler cfg (.ok ⟨.undef, .undef, .undef⟩) fa st ⟨some s, none⟩ now).res =
      .ok 200 ⟨jsToUpper s, "USD", .nan, cfg.priceApiBase, now⟩ false none ∧
    mapGet (priceHandler cfg (.ok ⟨.undef, .undef, .undef⟩) fa st
        ⟨some s, none⟩ now).st.priceCache (priceKey ticker "USD") =
      some ⟨jsToUpper s, "USD", .nan, cfg.priceApiBase, now⟩ := by
  have hcur : jsToUpper "USD" = "USD" := by decide
  refine ⟨fun data => toNumber_ne_undef _, ?_, ?_⟩
  all_goals
    rw [priceHandler_run_fetchPath cfg (.ok ⟨.undef, .undef, .undef⟩) fa st s now ticker
      hs hnf]
    unfold priceFetchPath
    dsimp only
    rw [if_neg (by decide)]
    simp [hcur, mapGet_mapSet_self, toNumber, jsOr, truthy]

/-- C9 witness: the concrete all-fields-missing success response returns
and caches price NaN. -/
theorem c9_price_nan_witness :
    (priceHandler cfgDefault (.ok ⟨.undef, .undef, .undef⟩) (.error ⟨none, none⟩)
      initialSt ⟨some "BTC", none⟩ 5).res =
      .ok 200 ⟨"BTC", "USD", .nan, cfgDefault.priceApiBase, 5⟩ false none :=
  (c9_price_nan_unreachable_502 cfgDefault (.error ⟨none, none⟩) initialSt "BTC" 5
    "BTCUSDT" (by decide) (by intro p hp; simp [mapGet, initialSt] at hp)).2.1

/-- The /history fetch path preserves the non-empty-points invariant of
the history cache: the only write it performs is guarded by the
empty-series 502 return. -/
theorem historyFetchPath_preserves_histInvariant (cfg : Config)
    (fetch : KParams → Except UpErr (List Row)) (st : St) (now : Int)
    (ticker symbol : String) (days : Nat) (interval : String) (cacheKey : String)
    (cached : Option HistoryCacheEntry) (h : histInvariant st) :
    histInvariant (historyFetchPath cfg fetch st now ticker symbol days interval
      cacheKey cached).st := by
  unfold historyFetchPath
  rcases hrf : resolvedFetch fetch (primaryParams ticker days interval)
    (degradedParams ticker) with ⟨rsp, calls⟩
  cases rsp with
  | ok klines =>
    dsimp only
    by_cases hemp : (seriesOf klines).isEmpty
    · rw [if_pos hemp]; exact h
    · rw [if_neg hemp]
      unfold histInvariant
      dsimp only
      refine mapSet_points_invariant h ?_
      intro hnil
      exact hemp (by rw [show seriesOf klines = ([] : List Point) from hnil]; rfl)
  | error e => exact h

/-- One /history request preserves the non-empty-points invariant. -/
theorem historyHandler_preserves_histInvariant (cfg : Config)
    (fetch : KParams → Except UpErr (List Row)) (st : St) (req : HistoryReq)
    (now : Int) (h : histInvariant st) :
    histInvariant (historyHandler cfg fetch st req now).st := by
  unfold historyHandler
  dsimp only
  split
  · exact h
  · split
    · exact h
    · split
      · split
        · exact h
        · exact historyFetchPath_preserves_histInvariant _ _ _ _ _ _ _ _ _ _ h
      · exact historyFetchPath_preserves_histInvariant _ _ _ _ _ _ _ _ _ _ h

/-- One /price request never touches the history cache, so it preserves
the invariant as well. -/
theorem priceHandler_preserves_histInvariant (cfg : Config)
    (fp fa : Except UpErr PriceData) (st : St) (req : PriceReq) (now : Int)
    (h : histInvariant st) :
    histInvariant (priceHandler cfg fp fa st req now).st := by
  unfold priceHandler priceFetchPath
  dsimp only
  (repeat' split) <;> exact h

/-- Every run of the service preserves the invariant. -/
theorem runEvents_histInvariant (evs : List Event) :
    ∀ st : St, histInvariant st → histInvariant (runEvents st evs) := by
  induction evs with
  | nil => exact fun st h => h
  | cons ev evs ih =>
    intro st h
    have hstep : histInvariant (stepEvent st ev) := by
      cases ev with
      | hist cfg fetch req now => exact historyHandler_preserves_histInvariant _ _ _ _ _ h
      | price cfg fp fa req now => exact priceHandler_preserves_histInvariant _ _ _ _ _ _ h
    exact ih (stepEvent st ev) hstep

/-- Every success response of the /history catch block has non-empty
points, provided any cached entry handed to it has non-empty points. -/
theorem historyCatch_ok_points (st : St) (now : Int) (cfg : Config)
    (ticker symbol : String) (days : Nat) (interval : String)
    (cached : Option HistoryCacheEntry) (e : UpErr)
    (hcached : ∀ entry, cached = some entry → entry.payload.points ≠ [])
    (pl : HistoryPayload) (c : Bool) (w : Option String)
    (hres : historyCatch st now cfg ticker symbol days interval cached e = .ok pl c w) :
    pl.points ≠ [] := by
  unfold historyCatch historyErrTail at hres
  cases hcc : cached with
  | some entry =>
    rw [hcc] at hres
    dsimp only at hres
    split at hres
    · injection hres with h1 h2 h3
      subst h1
      exact hcached entry hcc
    · split at hres <;> cases hres
  | none =>
    rw [hcc] at hres
    dsimp only at hres
    split at hres
    · split at hres
      · split at hres
        · injection hres with h1 h2 h3
          subst h1
          exact syntheticPoints_ne_nil now _
        · split at hres <;> cases hres
      · split at hres <;> cases hres
    · split at hres <;> cases hres

/-- Every success response of the /history fetch path has non-empty
points, provided any cached entry handed to it has non-empty points. -/
theorem historyFetchPath_ok_points (cfg : Config)
    (fetch : KParams → Except UpErr (List Row)) (st : St) (now : Int)
    (ticker symbol : String) (days : Nat) (interval : String) (cacheKey : String)
    (cached : Option HistoryCacheEntry)
    (hcached : ∀ entry, cached = some entry → entry.payload.points ≠ [])
    (pl : HistoryPayload) (c : Bool) (w : Option String)
    (hres : (historyFetchPath cfg fetch st now ticker symbol days interval cacheKey
      cached).res = .ok pl c w) :
    pl.points ≠ [] := by
  unfold historyFetchPath at hres
  rcases hrf : resolvedFetch fetch (primaryParams ticker days interval)
    (degradedParams ticker) with ⟨rsp, calls⟩
  rw [hrf] at hres
  cases rsp with
  | ok klines =>
    dsimp only at hres
    by_cases hemp : (seriesOf klines).isEmpty
    · rw [if_pos hemp] at hres; cases hres
    · rw [if_neg hemp] at hres
      dsimp only at hres
      injection hres with h1 h2 h3
      subst h1
      intro hnil
      exact hemp (by rw [show seriesOf klines = ([] : List Point) from hnil]; rfl)
  | error e =>
    exact historyCatch_ok_points st now cfg ticker symbol days interval cached e
      hcached pl c w hres

/-- Under the cache invariant, every success response of the /history
handler has non-empty points. -/
theorem historyHandler_ok_points (cfg : Config)
    (fetch : KParams → Except UpErr (List Row)) (st : St) (req : HistoryReq)
    (now : Int) (h : histInvariant st) (pl : HistoryPayload) (c : Bool)
    (w : Option String)
    (hres : (historyHandler cfg fetch st req now).res = .ok pl c w) :
    pl.points ≠ [] := by
  unfold historyHandler at hres
  dsimp only at hres
  split at hres
  · injection hres with h1 h2 h3
    subst h1
    simp [mockPoints]
  · split at hres
    · cases hres
    · rename_i ticker hticker
      split at hres
      · rename_i entry hentry
        split at hres
        · injection hres with h1 h2 h3
          subst h1
          obtain ⟨p, hp, hp2⟩ := mapGet_mem hentry
          rw [← hp2]
          exact h p hp
        · refine historyFetchPath_ok_points _ _ _ _ _ _ _ _ _ _ ?_ pl c w hres
          intro en hen
          injection hen with hen'
          subst hen'
          obtain ⟨p, hp, hp2⟩ := mapGet_mem hentry
          rw [← hp2]
          exact h p hp
      · refine historyFetchPath_ok_points _ _ _ _ _ _ _ _ _ _ ?_ pl c w hres
        intro en hen
        cases hen

/-- C10: along every run of the service from the empty start state, every
payload stored in the history cache has a non-empty point sequence (the
empty-series 502 return precedes the only cache write), and under that
invariant every success response of /history — in particular every
stale-fallback response served from the history cache — contains at
least one point. -/
theorem c10_stale_fallback_nonempty :
    (∀ evs : List Event, histInvariant (runEvents initialSt evs)) ∧
    (∀ (cfg : Config) (fetch : KParams → Except UpErr (List Row)) (st : St)
      (req : HistoryReq) (now : Int), histInvariant st →
      ∀ (pl : HistoryPayload) (c : Bool) (w : Option String),
        (historyHandler cfg fetch st req now).res = .ok pl c w → pl.points ≠ []) := by
  constructor
  · intro evs
    refine runEvents_histInvariant evs initialSt ?_
    intro p hp
    cases hp
  · intro cfg fetch st req now h pl c w hres
    exact historyHandler_ok_points cfg fetch st req now h pl c w hres

/-- C10 witness: the stale-fallback response served from the concrete
cached entry `c2Entry` under an upstream that always answers 429 has a
non-empty point sequence. -/
theorem c10_stale_fallback_nonempty_witness : c2Entry.payload.points ≠ [] :=
  c10_stale_fallback_nonempty.2 cfgDefault fetch429 c2St
    ⟨some "BTC", some 1, some "hourly"⟩ 1000000
    (by
      intro p hp
      rcases List.mem_singleton.mp hp with rfl
      decide)
    c2Entry.payload true (some rateLimitHistWarning) (by decide)

/-- C2 witness: concrete instance — a stale cached history entry is
served with `cached=true` and the rejection warning when the upstream
fails with 403, and the state is unchanged. -/
theorem c2_stale_fallback_statuses_witness :
    (historyHandler cfgDefault (fun _ => .error ⟨some 403, none⟩) c2St
      ⟨some "BTC", some 1, some "hourly"⟩ 1000000).res =
      .ok c2Entry.payload true (some rejectedHistWarning) ∧
    (historyHandler cfgDefault (fun _ => .error ⟨some 403, none⟩) c2St
      ⟨some "BTC", some 1, some "hourly"⟩ 1000000).st = c2St :=
  (c2_stale_fallback_statuses cfgDefault (fun _ => .error ⟨some 403, none⟩)
    c2St "BTC" "hourly" 1 1000000 "BTCUSDT" c2Entry ⟨some 403, none⟩
    rfl (by decide) (by decide) (by decide) rfl).1 (by decide)
